import Mathlib

/-!
Shallow embedding of the prediction pipeline of `src/predict.py`
(class `PredictionCache`, `Prediction.preprocess_image`,
`Prediction.predict_with_model`, `Prediction.predict`).

Modelling conventions:
* Python `time.time()` instants are explicit `Int` arguments (`now`); TTLs
  are `Int` as well, so `current_time - timestamp > ttl_seconds` translates
  verbatim.
* The two lock-step dicts `self.cache` and `self.timestamps` (always updated
  with the same keys) are one association list `entries : key ↦ (value,
  timestamp)` in Python-dict iteration order (insertion order; assignment to
  an existing key keeps its position).
* Model probabilities are exact rationals `ℚ`; the classifiers themselves
  (ONNX `session.run`) are external artifacts, so the per-url model outputs
  are oracle fields of an environment record.
-/

/-- A cached prediction value: `(name, confidence, model_used)`. -/
abbrev CacheValue := String × String × String

/-- One cache entry: key bound to `(value, timestamp)`. -/
abbrev CacheEntry := String × (CacheValue × Int)

/-- `PredictionCache` (src/predict.py:36-42): the two lock-step dicts
`cache`/`timestamps` as one ordered association list, plus `max_size` and
`ttl_seconds`. -/
structure PredictionCache where
  entries : List CacheEntry
  max_size : Nat
  ttl_seconds : Int
deriving DecidableEq

/-- `_cleanup_expired` (src/predict.py:44-53): drop every entry whose age
exceeds the TTL, i.e. keep those with `now - timestamp ≤ ttl_seconds`. -/
def cleanupExpired (now : Int) (c : PredictionCache) : PredictionCache :=
  { c with entries := c.entries.filter (fun e => decide (now - e.2.2 ≤ c.ttl_seconds)) }

/-- `self.cache.pop(key); self.timestamps.pop(key)`: remove a key's binding. -/
def removeKey (k : String) (l : List CacheEntry) : List CacheEntry :=
  l.filter (fun e => decide (e.1 ≠ k))

/-- Python dict assignment `d[key] = value`: replace the binding in place if
the key is present (keeping its position), else append at the end. -/
def insertEntry (k : String) (v : CacheValue × Int) : List CacheEntry → List CacheEntry
  | [] => [(k, v)]
  | e :: rest => if e.1 = k then (k, v) :: rest else e :: insertEntry k v rest

/-- `min(self.timestamps.keys(), key=lambda k: self.timestamps[k])`
(src/predict.py:72): the first key, in iteration order, holding the minimal
timestamp, together with that timestamp; `none` on an empty dict (where the
Python `min` would raise `ValueError`). -/
def oldestEntry : List CacheEntry → Option (String × Int)
  | [] => none
  | e :: rest =>
    match oldestEntry rest with
    | none => some (e.1, e.2.2)
    | some (k', ts') => if e.2.2 ≤ ts' then some (e.1, e.2.2) else some (k', ts')

/-- `PredictionCache.get` (src/predict.py:55-65): sweep expired entries, then
return the stored value if the key is present and fresh; returns the value
(if any) together with the mutated cache. -/
def cacheGet (c : PredictionCache) (k : String) (now : Int) :
    Option CacheValue × PredictionCache :=
  let c1 := cleanupExpired now c
  match c1.entries.lookup k with
  | some (v, ts) =>
    if now - ts ≤ c.ttl_seconds then (some v, c1)
    else (none, { c1 with entries := removeKey k c1.entries })
  | none => (none, c1)

/-- `PredictionCache.set` (src/predict.py:67-77): sweep expired entries; if
the map is still at or over capacity, evict the single oldest entry by
timestamp; then insert the new entry with the current timestamp. -/
def cacheSet (c : PredictionCache) (k : String) (v : CacheValue) (now : Int) :
    PredictionCache :=
  let c1 := cleanupExpired now c
  let c2 :=
    if c.max_size ≤ c1.entries.length then
      match oldestEntry c1.entries with
      | some (k0, _) => { c1 with entries := removeKey k0 c1.entries }
      | none => c1
    else c1
  { c2 with entries := insertEntry k (v, now) c2.entries }

/-- The sweep never grows the cache. -/
theorem length_cleanupExpired_le (now : Int) (c : PredictionCache) :
    (cleanupExpired now c).entries.length ≤ c.entries.length :=
  List.length_filter_le _ _

/-- Removing a key never grows the list. -/
theorem length_removeKey_le (k : String) (l : List CacheEntry) :
    (removeKey k l).length ≤ l.length :=
  List.length_filter_le _ _

/-- Dict insertion grows the list by at most one binding. -/
theorem length_insertEntry_le (k : String) (v : CacheValue × Int) (l : List CacheEntry) :
    (insertEntry k v l).length ≤ l.length + 1 := by
  induction l with
  | nil => simp [insertEntry]
  | cons e rest ih =>
    by_cases h : e.1 = k
    · simp only [insertEntry, if_pos h, List.length_cons]
      omega
    · simp only [insertEntry, if_neg h, List.length_cons]
      omega

/-- `oldestEntry` returns `none` exactly on the empty list. -/
theorem oldestEntry_eq_none {l : List CacheEntry} :
    oldestEntry l = none ↔ l = [] := by
  cases l with
  | nil => simp [oldestEntry]
  | cons e rest =>
    simp only [oldestEntry]
    cases oldestEntry rest with
    | none => simp
    | some p => by_cases h : e.2.2 ≤ p.2 <;> simp [h]

/-- The key reported by `oldestEntry` is bound in the list, at the reported
timestamp. -/
theorem oldestEntry_mem {l : List CacheEntry} {k0 : String} {ts0 : Int}
    (h : oldestEntry l = some (k0, ts0)) : ∃ v, (k0, (v, ts0)) ∈ l := by
  induction l generalizing k0 ts0 with
  | nil => simp [oldestEntry] at h
  | cons e rest ih =>
    simp only [oldestEntry] at h
    cases hr : oldestEntry rest with
    | none =>
      rw [hr] at h
      injection h with h'
      exact ⟨e.2.1, by rw [Prod.mk.injEq] at h'; simp [← h'.1, ← h'.2]⟩
    | some p =>
      rw [hr] at h
      obtain ⟨pk, pts⟩ := p
      dsimp only at h
      by_cases hle : e.2.2 ≤ pts
      · rw [if_pos hle] at h
        injection h with h'
        rw [Prod.mk.injEq] at h'
        exact ⟨e.2.1, by simp [← h'.1, ← h'.2]⟩
      · rw [if_neg hle] at h
        injection h with h'
        rw [Prod.mk.injEq] at h'
        obtain ⟨h1, h2⟩ := h'
        subst h1
        subst h2
        obtain ⟨v, hv⟩ := ih hr
        exact ⟨v, List.mem_cons_of_mem _ hv⟩

/-- The timestamp reported by `oldestEntry` is minimal among all entries. -/
theorem oldestEntry_min {l : List CacheEntry} {k0 : String} {ts0 : Int}
    (h : oldestEntry l = some (k0, ts0)) : ∀ e ∈ l, ts0 ≤ e.2.2 := by
  induction l generalizing k0 ts0 with
  | nil => simp
  | cons e rest ih =>
    simp only [oldestEntry] at h
    cases hr : oldestEntry rest with
    | none =>
      rw [hr] at h
      injection h with h'
      rw [Prod.mk.injEq] at h'
      have hnil : rest = [] := oldestEntry_eq_none.mp hr
      subst hnil
      obtain ⟨h1, h2⟩ := h'
      intro x hx
      simp only [List.mem_singleton] at hx
      subst hx
      omega
    | some p =>
      rw [hr] at h
      obtain ⟨pk, pts⟩ := p
      dsimp only at h
      by_cases hle : e.2.2 ≤ pts
      · rw [if_pos hle] at h
        injection h with h'
        rw [Prod.mk.injEq] at h'
        obtain ⟨h1, h2⟩ := h'
        intro x hx
        rcases List.mem_cons.mp hx with hx | hx
        · subst hx; omega
        · have hmin := ih hr x hx
          omega
      · rw [if_neg hle] at h
        injection h with h'
        rw [Prod.mk.injEq] at h'
        obtain ⟨h1, h2⟩ := h'
        intro x hx
        rcases List.mem_cons.mp hx with hx | hx
        · subst hx
          omega
        · have hmin := ih hr x hx
          omega

/-- Removing a list member that fails the filter predicate strictly shrinks
the list. -/
theorem length_filter_lt_of_mem {α : Type} {p : α → Bool} {l : List α} {x : α}
    (hx : x ∈ l) (hp : p x = false) : (l.filter p).length < l.length := by
  induction l with
  | nil => simp at hx
  | cons e rest ih =>
    rcases List.mem_cons.mp hx with hx | hx
    · subst hx
      have hle := List.length_filter_le p rest
      simp only [List.filter_cons, hp]
      simp only [Bool.false_eq_true, if_false, List.length_cons]
      omega
    · have hlt := ih hx
      cases hpe : p e <;> simp [List.filter_cons, hpe] <;> omega

/-- Looking up the key just written by a dict assignment yields the new
value. -/
theorem lookup_insertEntry_self (k : String) (v : CacheValue × Int)
    (l : List CacheEntry) : List.lookup k (insertEntry k v l) = some v := by
  induction l with
  | nil => simp [insertEntry, List.lookup]
  | cons e rest ih =>
    by_cases h : e.1 = k
    · simp [insertEntry, h, List.lookup]
    · simp only [insertEntry, if_neg h]
      have hene : (k == e.1) = false := by
        simp only [beq_eq_false_iff_ne, ne_eq]
        exact fun hk => h hk.symm
      cases e with
      | mk e1 e2 => simpa [List.lookup, hene] using ih

/-- A dict assignment leaves every other key's binding unchanged. -/
theorem lookup_insertEntry_ne (k k' : String) (v : CacheValue × Int)
    (l : List CacheEntry) (hne : k' ≠ k) :
    List.lookup k' (insertEntry k v l) = List.lookup k' l := by
  have hne' : (k' == k) = false := by simpa [beq_eq_false_iff_ne] using hne
  induction l with
  | nil => simp [insertEntry, List.lookup, hne']
  | cons e rest ih =>
    by_cases h : e.1 = k
    · subst h
      cases e with
      | mk e1 e2 =>
        simp only [insertEntry, if_pos rfl]
        have hne' : (k' == e1) = false := by simpa [beq_eq_false_iff_ne] using hne
        simp [List.lookup, hne']
    · cases e with
      | mk e1 e2 =>
        simp only [insertEntry, if_neg h]
        by_cases hk : k' = e1
        · simp [List.lookup, hk]
        · have hk' : (k' == e1) = false := by simpa [beq_eq_false_iff_ne] using hk
          simpa [List.lookup, hk'] using ih

/-- The first binding of a key survives a filter that accepts it, and is
still the first binding afterwards. -/
theorem lookup_filter_of_true {l : List CacheEntry} {k : String}
    {b : CacheValue × Int} (p : CacheEntry → Bool)
    (h : List.lookup k l = some b) (hp : p (k, b) = true) :
    List.lookup k (l.filter p) = some b := by
  induction l with
  | nil => simp [List.lookup] at h
  | cons e rest ih =>
    cases e with
    | mk e1 e2 =>
      by_cases hk : k = e1
      · subst hk
        simp only [List.lookup, beq_self_eq_true] at h
        injection h with h
        subst h
        rw [List.filter_cons, hp]
        simp [List.lookup]
      · have hk' : (k == e1) = false := by simpa [beq_eq_false_iff_ne] using hk
        simp only [List.lookup, hk'] at h
        rw [List.filter_cons]
        cases hpe : p (e1, e2)
        · simpa using ih h
        · simpa [List.lookup, hk'] using ih h

/-- A key absent from the keys of a list has no binding in any filtering of
the list. -/
theorem lookup_eq_none_of_not_mem_keys {l : List CacheEntry} {k : String}
    (h : k ∉ l.map Prod.fst) : List.lookup k l = none := by
  induction l with
  | nil => simp [List.lookup]
  | cons e rest ih =>
    cases e with
    | mk e1 e2 =>
      simp only [List.map_cons, List.mem_cons, not_or] at h
      have hk : (k == e1) = false := by simpa [beq_eq_false_iff_ne] using h.1
      simpa [List.lookup, hk] using ih h.2

/-- With duplicate-free keys (the Python dict invariant), a binding that
fails the filter predicate is gone from the filtered list altogether. -/
theorem lookup_filter_of_false {l : List CacheEntry} {k : String}
    {b : CacheValue × Int} (p : CacheEntry → Bool)
    (hnd : (l.map Prod.fst).Nodup)
    (h : List.lookup k l = some b) (hp : p (k, b) = false) :
    List.lookup k (l.filter p) = none := by
  induction l with
  | nil => simp [List.lookup] at h
  | cons e rest ih =>
    cases e with
    | mk e1 e2 =>
      simp only [List.map_cons, List.nodup_cons] at hnd
      by_cases hk : k = e1
      · subst hk
        simp only [List.lookup, beq_self_eq_true] at h
        injection h with h
        subst h
        simp only [List.filter_cons, hp]
        simp only [Bool.false_eq_true, if_false]
        have : k ∉ (rest.filter p).map Prod.fst := by
          intro hmem
          exact hnd.1 (by
            have hsub : rest.filter p ⊆ rest := fun a ha => List.mem_of_mem_filter ha
            exact List.map_subset Prod.fst hsub hmem)
        exact lookup_eq_none_of_not_mem_keys this
      · have hk' : (k == e1) = false := by simpa [beq_eq_false_iff_ne] using hk
        simp only [List.lookup, hk'] at h
        rw [List.filter_cons]
        cases hpe : p (e1, e2)
        · simpa using ih hnd.2 h
        · simpa [List.lookup, hk'] using ih hnd.2 h

/-- `set` preserves the configured capacity field. -/
theorem max_size_cacheSet (c : PredictionCache) (k : String) (v : CacheValue)
    (now : Int) : (cacheSet c k v now).max_size = c.max_size := by
  simp only [cacheSet]
  split <;> [skip; rfl]
  split <;> rfl

/-- `set` preserves the configured TTL field. -/
theorem ttl_cacheSet (c : PredictionCache) (k : String) (v : CacheValue)
    (now : Int) : (cacheSet c k v now).ttl_seconds = c.ttl_seconds := by
  simp only [cacheSet]
  split <;> [skip; rfl]
  split <;> rfl

/-- An entry with a different key survives a dict assignment. -/
theorem mem_insertEntry_of_ne {e : CacheEntry} (k : String) (v : CacheValue × Int)
    {l : List CacheEntry} (he : e ∈ l) (hne : e.1 ≠ k) : e ∈ insertEntry k v l := by
  induction l with
  | nil => simp at he
  | cons x rest ih =>
    by_cases hx : x.1 = k
    · rcases List.mem_cons.mp he with he | he
      · subst he; exact absurd hx hne
      · simp only [insertEntry, if_pos hx]
        exact List.mem_cons_of_mem _ he
    · simp only [insertEntry, if_neg hx]
      rcases List.mem_cons.mp he with he | he
      · subst he; exact List.mem_cons_self _ _
      · exact List.mem_cons_of_mem _ (ih he)

/-- An entry with a different key survives a key removal. -/
theorem mem_removeKey_of_ne {e : CacheEntry} (k0 : String) {l : List CacheEntry}
    (he : e ∈ l) (hne : e.1 ≠ k0) : e ∈ removeKey k0 l :=
  List.mem_filter.mpr ⟨he, by simpa using hne⟩

/-- With duplicate-free keys, a key determines its binding. -/
theorem nodup_keys_binding_unique {l : List CacheEntry}
    (hnd : (l.map Prod.fst).Nodup) {k : String} {x y : CacheValue × Int}
    (hx : (k, x) ∈ l) (hy : (k, y) ∈ l) : x = y := by
  induction l with
  | nil => simp at hx
  | cons e rest ih =>
    simp only [List.map_cons, List.nodup_cons] at hnd
    rcases List.mem_cons.mp hx with hx | hx <;> rcases List.mem_cons.mp hy with hy | hy
    · rw [← hx] at hy; exact (Prod.mk.injEq .. ▸ hy).2.symm
    · exfalso
      apply hnd.1
      have hk : (k : String) ∈ rest.map Prod.fst := List.mem_map.mpr ⟨(k, y), hy, rfl⟩
      rw [← hx]
      exact hk
    · exfalso
      apply hnd.1
      have hk : (k : String) ∈ rest.map Prod.fst := List.mem_map.mpr ⟨(k, x), hx, rfl⟩
      rw [← hy]
      exact hk
    · exact ih hnd.2 hx hy

/-- `set` keeps the cache within its configured capacity. -/
theorem cacheSet_length_le (c : PredictionCache) (k : String) (v : CacheValue)
    (now : Int) (hms : 1 ≤ c.max_size) (hlen : c.entries.length ≤ c.max_size) :
    (cacheSet c k v now).entries.length ≤ c.max_size := by
  have h1 : (cleanupExpired now c).entries.length ≤ c.entries.length :=
    length_cleanupExpired_le now c
  by_cases hfull : c.max_size ≤ (cleanupExpired now c).entries.length
  · have hne : (cleanupExpired now c).entries ≠ [] := by
      intro h0
      rw [h0] at hfull
      simp at hfull
      omega
    cases ho : oldestEntry (cleanupExpired now c).entries with
    | none => exact absurd (oldestEntry_eq_none.mp ho) hne
    | some p =>
      obtain ⟨k0, ts0⟩ := p
      obtain ⟨v0, hv0⟩ := oldestEntry_mem ho
      have hrm : (removeKey k0 (cleanupExpired now c).entries).length <
          (cleanupExpired now c).entries.length := by
        apply length_filter_lt_of_mem hv0
        simp
      have hins := length_insertEntry_le k (v, now)
        (removeKey k0 (cleanupExpired now c).entries)
      simp only [cacheSet, if_pos hfull, ho]
      omega
  · simp only [cacheSet, if_neg hfull]
    have hins := length_insertEntry_le k (v, now) (cleanupExpired now c).entries
    omega

/-- `get` never grows the cache. -/
theorem cacheGet_length_le (c : PredictionCache) (k : String) (now : Int) :
    (cacheGet c k now).2.entries.length ≤ c.entries.length := by
  have h1 : (cleanupExpired now c).entries.length ≤ c.entries.length :=
    length_cleanupExpired_le now c
  cases hl : (cleanupExpired now c).entries.lookup k with
  | none => simpa [cacheGet, hl] using h1
  | some p =>
    obtain ⟨v, ts⟩ := p
    by_cases hts : now - ts ≤ c.ttl_seconds
    · simp only [cacheGet, hl]
      rw [if_pos hts]
      simpa using h1
    · have h2 := length_removeKey_le k (cleanupExpired now c).entries
      simp only [cacheGet, hl, if_neg hts]
      omega

/-- A fresh cache of capacity `ms` filled by an arbitrary sequence of `set`
calls. -/
def setMany (ms : Nat) (ttl : Int) (ops : List (String × CacheValue × Int)) :
    PredictionCache :=
  ops.foldl (fun c o => cacheSet c o.1 o.2.1 o.2.2) (PredictionCache.mk [] ms ttl)

/-- Any sequence of `set` calls on a fresh cache respects the capacity. -/
theorem setMany_length_le (ms : Nat) (hms : 1 ≤ ms) (ttl : Int)
    (ops : List (String × CacheValue × Int)) :
    (setMany ms ttl ops).entries.length ≤ ms := by
  suffices h : ∀ (c : PredictionCache), c.max_size = ms → c.entries.length ≤ ms →
      (ops.foldl (fun c o => cacheSet c o.1 o.2.1 o.2.2) c).entries.length ≤ ms by
    exact h (PredictionCache.mk [] ms ttl) rfl (by simp)
  induction ops with
  | nil => intro c hcm hcl; simpa using hcl
  | cons o rest ih =>
    intro c hcm hcl
    simp only [List.foldl_cons]
    apply ih
    · rw [max_size_cacheSet, hcm]
    · rw [← hcm] at hcl ⊢
      exact cacheSet_length_le c o.1 o.2.1 o.2.2 (hcm ▸ hms) hcl

/-- Any entry that `set` evicts for capacity (present after the sweep, key
different from the inserted one, key absent afterwards) carried a minimal
timestamp among the swept entries. -/
theorem cacheSet_evicted_is_oldest (c : PredictionCache)
    (hnd : (c.entries.map Prod.fst).Nodup) (k : String) (v : CacheValue)
    (now : Int) (e : CacheEntry) (he : e ∈ (cleanupExpired now c).entries)
    (hek : e.1 ≠ k)
    (hgone : ∀ e' ∈ (cacheSet c k v now).entries, e'.1 ≠ e.1) :
    ∀ e' ∈ (cleanupExpired now c).entries, e.2.2 ≤ e'.2.2 := by
  have hnd1 : ((cleanupExpired now c).entries.map Prod.fst).Nodup := by
    apply List.Nodup.sublist _ hnd
    exact List.Sublist.map Prod.fst (List.filter_sublist _)
  by_cases hfull : c.max_size ≤ (cleanupExpired now c).entries.length
  · cases ho : oldestEntry (cleanupExpired now c).entries with
    | none =>
      rw [oldestEntry_eq_none.mp ho] at he
      simp at he
    | some p =>
      obtain ⟨k0, ts0⟩ := p
      by_cases hk0 : e.1 = k0
      · obtain ⟨v0, hv0⟩ := oldestEntry_mem ho
        have hee : e = (k0, (v0, ts0)) := by
          obtain ⟨e1, e2⟩ := e
          simp only at hk0
          subst hk0
          rw [nodup_keys_binding_unique hnd1 he hv0]
        rw [hee]
        exact oldestEntry_min ho
      · exfalso
        apply hgone e _ rfl
        simp only [cacheSet, if_pos hfull, ho]
        exact mem_insertEntry_of_ne k (v, now) (mem_removeKey_of_ne k0 he hk0) hek
  · exfalso
    apply hgone e _ rfl
    simp only [cacheSet, if_neg hfull]
    exact mem_insertEntry_of_ne k (v, now) he hek

/-- A full 10-entry cache (capacity 10, generous TTL) used to probe the
eviction policy of `PredictionCache.set`. -/
def batchEvictionProbe : PredictionCache :=
  PredictionCache.mk
    [("k0", (("n0", "c0", "m0"), 0)), ("k1", (("n1", "c1", "m1"), 1)),
     ("k2", (("n2", "c2", "m2"), 2)), ("k3", (("n3", "c3", "m3"), 3)),
     ("k4", (("n4", "c4", "m4"), 4)), ("k5", (("n5", "c5", "m5"), 5)),
     ("k6", (("n6", "c6", "m6"), 6)), ("k7", (("n7", "c7", "m7"), 7)),
     ("k8", (("n8", "c8", "m8"), 8)), ("k9", (("n9", "c9", "m9"), 9))]
    10 1000000

/-- C4, counterexample: on a cache at capacity 10, `set` would — per the
claim — evict the oldest 20% (two entries, "k0" and "k1") in one batch,
leaving 9 entries after the insert.  The code evicts only the single oldest
entry: after the insert the cache again holds 10 entries, and "k1" (inside
the claimed oldest-20% batch) is still present. -/
theorem claim4_counterexample :
    (cacheSet batchEvictionProbe "knew" ("n", "c", "m") 100).entries.length = 10 ∧
    List.lookup "k1"
        (cacheSet batchEvictionProbe "knew" ("n", "c", "m") 100).entries =
      some (("n1", "c1", "m1"), 1) := by
  constructor
  · decide
  · decide

/-- C4 (amended): when the cache map is at or over its configured capacity,
`set` removes the single oldest entry by timestamp (one entry, not a 20%
batch) before inserting the new entry with the current timestamp. -/
theorem claim4_single_oldest_eviction (c : PredictionCache) (k : String)
    (v : CacheValue) (now : Int) (hms : 1 ≤ c.max_size)
    (hfresh : ∀ e ∈ c.entries, now - e.2.2 ≤ c.ttl_seconds)
    (hfull : c.max_size ≤ c.entries.length) :
    ∃ k0 ts0, oldestEntry c.entries = some (k0, ts0) ∧
      (∀ e ∈ c.entries, ts0 ≤ e.2.2) ∧
      (cacheSet c k v now).entries = insertEntry k (v, now) (removeKey k0 c.entries) := by
  have hclean : cleanupExpired now c = c := by
    have hf : c.entries.filter (fun e => decide (now - e.2.2 ≤ c.ttl_seconds)) = c.entries :=
      List.filter_eq_self.mpr (fun e he => by simpa using hfresh e he)
    unfold cleanupExpired
    rw [hf]
  have hne : c.entries ≠ [] := by
    intro h0
    rw [h0] at hfull
    simp at hfull
    omega
  cases ho : oldestEntry c.entries with
  | none => exact absurd (oldestEntry_eq_none.mp ho) hne
  | some p =>
    obtain ⟨k0, ts0⟩ := p
    refine ⟨k0, ts0, rfl, oldestEntry_min ho, ?_⟩
    rw [show cacheSet c k v now =
        { (if c.max_size ≤ (cleanupExpired now c).entries.length then
            match oldestEntry (cleanupExpired now c).entries with
            | some (k0, _) =>
              { cleanupExpired now c with
                entries := removeKey k0 (cleanupExpired now c).entries }
            | none => cleanupExpired now c
          else cleanupExpired now c) with
          entries := insertEntry k (v, now)
            (if c.max_size ≤ (cleanupExpired now c).entries.length then
              match oldestEntry (cleanupExpired now c).entries with
              | some (k0, _) =>
                { cleanupExpired now c with
                  entries := removeKey k0 (cleanupExpired now c).entries }
              | none => cleanupExpired now c
            else cleanupExpired now c).entries } from rfl]
    rw [hclean, if_pos hfull, ho]

/-- C4 witness: the amended single-eviction behaviour at a concrete full
two-entry cache. -/
theorem claim4_witness :
    ∃ k0 ts0,
      oldestEntry (PredictionCache.mk
          [("a", (("na", "ca", "ma"), 7)), ("b", (("nb", "cb", "mb"), 3))]
          2 3600).entries = some (k0, ts0) ∧
      (∀ e ∈ (PredictionCache.mk
          [("a", (("na", "ca", "ma"), 7)), ("b", (("nb", "cb", "mb"), 3))]
          2 3600).entries, ts0 ≤ e.2.2) ∧
      (cacheSet (PredictionCache.mk
          [("a", (("na", "ca", "ma"), 7)), ("b", (("nb", "cb", "mb"), 3))]
          2 3600) "c" ("nc", "cc", "mc") 10).entries =
        insertEntry "c" (("nc", "cc", "mc"), 10)
          (removeKey k0 (PredictionCache.mk
            [("a", (("na", "ca", "ma"), 7)), ("b", (("nb", "cb", "mb"), 3))]
            2 3600).entries) :=
  claim4_single_oldest_eviction
    (PredictionCache.mk
      [("a", (("na", "ca", "ma"), 7)), ("b", (("nb", "cb", "mb"), 3))]
      2 3600)
    "c" ("nc", "cc", "mc") 10 (by decide) (by decide) (by decide)

/-- C5: the cache size bound.  (i) any sequence of `set` calls on a fresh
cache of capacity `ms` — in particular inserting `ms + 1` distinct keys —
leaves at most `ms` entries; (ii) a single `set` preserves the bound on any
cache state; (iii) `get` preserves the bound; (iv) any entry evicted for
capacity by a `set` (present after the sweep, distinct from the inserted
key, absent afterwards) had a minimal insertion timestamp among the swept
entries. -/
theorem claim5_capacity_invariant (ms : Nat) (hms : 1 ≤ ms) (ttl : Int) :
    (∀ ops : List (String × CacheValue × Int),
      (setMany ms ttl ops).entries.length ≤ ms) ∧
    (∀ c : PredictionCache, c.max_size = ms → c.entries.length ≤ ms →
      ∀ k v now, (cacheSet c k v now).entries.length ≤ ms) ∧
    (∀ c : PredictionCache, c.entries.length ≤ ms →
      ∀ k now, (cacheGet c k now).2.entries.length ≤ ms) ∧
    (∀ c : PredictionCache, (c.entries.map Prod.fst).Nodup →
      ∀ k v now (e : CacheEntry), e ∈ (cleanupExpired now c).entries → e.1 ≠ k →
        (∀ e' ∈ (cacheSet c k v now).entries, e'.1 ≠ e.1) →
        ∀ e' ∈ (cleanupExpired now c).entries, e.2.2 ≤ e'.2.2) := by
  refine ⟨setMany_length_le ms hms ttl, ?_, ?_, ?_⟩
  · intro c hcm hcl k v now
    rw [← hcm] at hcl ⊢
    exact cacheSet_length_le c k v now (hcm ▸ hms) hcl
  · intro c hcl k now
    exact le_trans (cacheGet_length_le c k now) hcl
  · intro c hnd k v now e he hek hgone
    exact cacheSet_evicted_is_oldest c hnd k v now e he hek hgone

/-- C5 witness: capacity 2 with three distinct keys inserted; the single
`set` bound and the `get` bound at a concrete state; eviction minimality at
a concrete eviction. -/
theorem claim5_witness :
    (setMany 2 3600
      [("a", ("n", "c", "m"), 0), ("b", ("n", "c", "m"), 1),
       ("c", ("n", "c", "m"), 2)]).entries.length ≤ 2 :=
  (claim5_capacity_invariant 2 (by decide) 3600).1
    [("a", ("n", "c", "m"), 0), ("b", ("n", "c", "m"), 1),
     ("c", ("n", "c", "m"), 2)]

/-- C6: for a key bound at timestamp `ts`, once `now - ts` exceeds the TTL,
`get` returns `None` and removes the entry (with no intervening `set`);
within the TTL window `get` returns the stored value. -/
theorem claim6_ttl_expiry (c : PredictionCache) (k : String) (v : CacheValue)
    (ts now : Int) (hnd : (c.entries.map Prod.fst).Nodup)
    (hlk : List.lookup k c.entries = some (v, ts)) :
    (c.ttl_seconds < now - ts →
      (cacheGet c k now).1 = none ∧
      List.lookup k (cacheGet c k now).2.entries = none) ∧
    (now - ts ≤ c.ttl_seconds → (cacheGet c k now).1 = some v) := by
  constructor
  · intro hexp
    have hfalse :
        (fun e : CacheEntry => decide (now - e.2.2 ≤ c.ttl_seconds)) (k, (v, ts)) = false := by
      simp only [decide_eq_false_iff_not]
      omega
    have hnone : List.lookup k (cleanupExpired now c).entries = none := by
      simpa [cleanupExpired] using
        lookup_filter_of_false (fun e => decide (now - e.2.2 ≤ c.ttl_seconds)) hnd hlk hfalse
    constructor
    · simp only [cacheGet, hnone]
    · simp only [cacheGet, hnone]
  · intro hfresh
    have htrue :
        (fun e : CacheEntry => decide (now - e.2.2 ≤ c.ttl_seconds)) (k, (v, ts)) = true := by
      simp only [decide_eq_true_eq]
      omega
    have hsome : List.lookup k (cleanupExpired now c).entries = some (v, ts) := by
      simpa [cleanupExpired] using
        lookup_filter_of_true (fun e => decide (now - e.2.2 ≤ c.ttl_seconds)) hlk htrue
    simp only [cacheGet, hsome]
    rw [if_pos hfresh]

/-- C6 witness: a concrete single-entry cache checked past and within its
TTL. -/
theorem claim6_witness :
    ((3600 : Int) < 5000 - 0 →
      (cacheGet (PredictionCache.mk [("u", (("n", "c", "m"), 0))] 10 3600) "u" 5000).1 = none ∧
      List.lookup "u"
        (cacheGet (PredictionCache.mk [("u", (("n", "c", "m"), 0))] 10 3600) "u" 5000).2.entries
        = none) ∧
    ((5000 : Int) - 0 ≤ 3600 →
      (cacheGet (PredictionCache.mk [("u", (("n", "c", "m"), 0))] 10 3600) "u" 5000).1 =
        some ("n", "c", "m")) :=
  claim6_ttl_expiry (PredictionCache.mk [("u", (("n", "c", "m"), 0))] 10 3600)
    "u" ("n", "c", "m") 0 5000 (by decide) (by decide)

/-- Floor of a rational as an integer (`Int.fdiv` floors). -/
def ratFloor (q : ℚ) : Int := q.num.fdiv q.den

/-- Round a rational to the nearest integer, ties to even — the rounding of
Python's fixed-point formatting. -/
def roundHalfEven (q : ℚ) : Int :=
  let f := ratFloor q
  let r := q - (f : ℚ)
  if r < 1 / 2 then f
  else if 1 / 2 < r then f + 1
  else if f % 2 = 0 then f else f + 1

/-- `f"{v:.2f}%"` (src/predict.py:417,444,450) on the exact rational
percentage: two decimal places, nearest-ties-to-even. -/
def formatPct (x : ℚ) : String :=
  let c := roundHalfEven (x * 100)
  let fr := (c % 100).toNat
  toString (c / 100) ++ "." ++
    (if fr < 10 then "0" ++ toString fr else toString fr) ++ "%"

/-- Python's substring test `pat in s`. -/
def containsSub (pat : List Char) : List Char → Bool
  | [] => pat.isPrefixOf []
  | c :: rest => pat.isPrefixOf (c :: rest) || containsSub pat rest

/-- `'cdn.discordapp.com' in url or 'media.discordapp.net' in url`
(src/predict.py:234). -/
def isDiscordCdn (url : String) : Bool :=
  containsSub "cdn.discordapp.com".toList url.toList ||
  containsSub "media.discordapp.net".toList url.toList

/-- One attempt's outcome of the image GET inside `preprocess_image`: an
HTTP response (status plus the `Retry-After` header value, defaulted to 2),
an `asyncio.TimeoutError`, or an `aiohttp.ClientError`. -/
inductive FetchReply where
  | response (status : Nat) (retryAfter : Nat)
  | timedOut
  | netError
deriving DecidableEq

instance : DecidableEq (Except String Unit) := fun a b =>
  match a, b with
  | Except.ok u, Except.ok v => by cases u; cases v; exact isTrue rfl
  | Except.ok _, Except.error _ => isFalse (fun h => Except.noConfusion h)
  | Except.error _, Except.ok _ => isFalse (fun h => Except.noConfusion h)
  | Except.error s, Except.error t =>
    if h : s = t then isTrue (by rw [h]) else isFalse (fun hh => h (by injection hh))

/-- Observable trace of `preprocess_image`: final outcome (the decoded
tensor itself is elided — a 200 response is a success), number of GET
attempts performed, and the backoff delays slept between attempts. -/
structure FetchTrace where
  outcome : Except String Unit
  attempts : Nat
  delays : List ℚ
deriving DecidableEq

/-- The retry loop of `Prediction.preprocess_image` (src/predict.py:236-353),
from a given attempt index with the remaining loop iterations as fuel:
429 honours `Retry-After` (default fixed delay 2); 404 retries with
exponential backoff `1·2^attempt` only for the flaky CDN; 502/503/504 retry
with `2·2^attempt`; timeouts and client errors retry with `1.5·2^attempt`;
any other non-200 status fails immediately; exhaustion raises the
classified error of the last failure kind. -/
def preprocessGo (isCdn : Bool) (replies : Nat → FetchReply) (max_retries : Nat) :
    Nat → Nat → FetchTrace
  | _, 0 =>
    FetchTrace.mk
      (Except.error ("Failed to load image after " ++ toString max_retries ++ " attempts"))
      0 []
  | attempt, fuel + 1 =>
    match replies attempt with
    | FetchReply.response s ra =>
      if s = 429 then
        if attempt < max_retries - 1 then
          let t := preprocessGo isCdn replies max_retries (attempt + 1) fuel
          FetchTrace.mk t.outcome (t.attempts + 1) ((ra : ℚ) :: t.delays)
        else
          FetchTrace.mk
            (Except.error ("Rate limited by Discord CDN after " ++
              toString max_retries ++ " attempts")) 1 []
      else if s = 404 then
        if isCdn = true ∧ attempt < max_retries - 1 then
          let t := preprocessGo isCdn replies max_retries (attempt + 1) fuel
          FetchTrace.mk t.outcome (t.attempts + 1) (((1 : ℚ) * 2 ^ attempt) :: t.delays)
        else
          FetchTrace.mk
            (Except.error "Image not found (404) - URL may be expired or deleted") 1 []
      else if s = 502 ∨ s = 503 ∨ s = 504 then
        if attempt < max_retries - 1 then
          let t := preprocessGo isCdn replies max_retries (attempt + 1) fuel
          FetchTrace.mk t.outcome (t.attempts + 1) (((2 : ℚ) * 2 ^ attempt) :: t.delays)
        else
          FetchTrace.mk
            (Except.error ("Server error " ++ toString s ++ " after " ++
              toString max_retries ++ " attempts")) 1 []
      else if s ≠ 200 then
        FetchTrace.mk (Except.error ("HTTP " ++ toString s ++ " error fetching image")) 1 []
      else
        FetchTrace.mk (Except.ok ()) 1 []
    | FetchReply.timedOut =>
      if attempt < max_retries - 1 then
        let t := preprocessGo isCdn replies max_retries (attempt + 1) fuel
        FetchTrace.mk t.outcome (t.attempts + 1) (((3 / 2 : ℚ) * 2 ^ attempt) :: t.delays)
      else
        FetchTrace.mk
          (Except.error ("Timeout fetching image after " ++
            toString max_retries ++ " attempts")) 1 []
    | FetchReply.netError =>
      if attempt < max_retries - 1 then
        let t := preprocessGo isCdn replies max_retries (attempt + 1) fuel
        FetchTrace.mk t.outcome (t.attempts + 1) (((3 / 2 : ℚ) * 2 ^ attempt) :: t.delays)
      else
        FetchTrace.mk
          (Except.error ("Network error after " ++ toString max_retries ++ " attempts")) 1 []

/-- `Prediction.preprocess_image(url, session, ..., max_retries)`
(src/predict.py:223-353): run the retry loop from attempt 0. -/
def preprocess_image (url : String) (replies : Nat → FetchReply)
    (max_retries : Nat) : FetchTrace :=
  preprocessGo (isDiscordCdn url) replies max_retries 0 max_retries

/-- `np.argmax` over the raw output vector: index and value of the first
maximal element (`none` on an empty vector, where NumPy raises). -/
def argmaxPair : List ℚ → Option (Nat × ℚ)
  | [] => none
  | x :: rest =>
    match argmaxPair rest with
    | none => some (0, x)
    | some (j, m) => if m > x then some (j + 1, m) else some (0, x)

/-- `pred_idx = int(np.argmax(logits))` (src/predict.py:367). -/
def argmaxIdx (l : List ℚ) : Nat :=
  match argmaxPair l with
  | some p => p.1
  | none => 0

/-- The label computation of `Prediction.predict_with_model`
(src/predict.py:371): `class_names[pred_idx] if pred_idx < len(class_names)
else f"unknown_{pred_idx}"`.  The indexing is guarded, so the in-bounds
access carries its proof; `softmax` only feeds the returned probability,
never the label. -/
def modelLabel (logits : List ℚ) (class_names : List String) : String :=
  let pred_idx := argmaxIdx logits
  if h : pred_idx < class_names.length then class_names.get ⟨pred_idx, h⟩
  else "unknown_" ++ toString pred_idx

/-- C7: for a flaky-CDN (Discord CDN) URL answered with HTTP 404 on every
attempt, `preprocess_image` raises the classified not-found error
("expired or deleted") after exactly the 4-attempt retry budget, sleeping
exponentially increasing delays 1s, 2s, 4s between attempts; for a non-CDN
URL a 404 fails immediately on the first attempt with no delay. -/
theorem claim7_retry_exhaustion_404 (url : String) (replies : Nat → FetchReply)
    (ra : Nat) (hr : ∀ n, replies n = FetchReply.response 404 ra) :
    (isDiscordCdn url = true →
      preprocess_image url replies 4 =
        FetchTrace.mk
          (Except.error "Image not found (404) - URL may be expired or deleted")
          4 [1, 2, 4]) ∧
    (isDiscordCdn url = false →
      preprocess_image url replies 4 =
        FetchTrace.mk
          (Except.error "Image not found (404) - URL may be expired or deleted")
          1 []) := by
  have hfun : replies = fun _ => FetchReply.response 404 ra := funext hr
  subst hfun
  constructor
  · intro hcdn
    simp only [preprocess_image, hcdn]
    norm_num [preprocessGo]
  · intro hcdn
    simp only [preprocess_image, hcdn]
    norm_num [preprocessGo]

/-- C7 witness: a concrete Discord CDN URL and a concrete other URL, both
always answering 404. -/
theorem claim7_witness :
    preprocess_image "https://cdn.discordapp.com/a.png"
        (fun _ => FetchReply.response 404 2) 4 =
      FetchTrace.mk
        (Except.error "Image not found (404) - URL may be expired or deleted")
        4 [1, 2, 4] ∧
    preprocess_image "https://example.com/a.png"
        (fun _ => FetchReply.response 404 2) 4 =
      FetchTrace.mk
        (Except.error "Image not found (404) - URL may be expired or deleted")
        1 [] :=
  ⟨(claim7_retry_exhaustion_404 "https://cdn.discordapp.com/a.png"
      (fun _ => FetchReply.response 404 2) 2 (fun _ => rfl)).1 (by decide),
   (claim7_retry_exhaustion_404 "https://example.com/a.png"
      (fun _ => FetchReply.response 404 2) 2 (fun _ => rfl)).2 (by decide)⟩

/-- C9: the label lookup of `predict_with_model` is total — the in-range
arg-max index reads the label list, an out-of-range index produces
`"unknown_<index>"`, and the unguarded out-of-bounds access is never
reached (the in-range access carries its bound proof by construction). -/
theorem claim9_label_lookup_total (logits : List ℚ) (class_names : List String) :
    (∀ h : argmaxIdx logits < class_names.length,
      modelLabel logits class_names = class_names.get ⟨argmaxIdx logits, h⟩) ∧
    (class_names.length ≤ argmaxIdx logits →
      modelLabel logits class_names = "unknown_" ++ toString (argmaxIdx logits)) := by
  constructor
  · intro h
    simp only [modelLabel]
    rw [dif_pos h]
  · intro h
    simp only [modelLabel]
    rw [dif_neg (by omega)]

/-- C9 witness: a concrete logit vector against a matching and an empty
label list. -/
theorem claim9_witness :
    modelLabel [(1 : ℚ), 3, 2] ["a", "b", "c"] = "b" ∧
    modelLabel [(1 : ℚ), 3, 2] [] = "unknown_1" :=
  ⟨((claim9_label_lookup_total [(1 : ℚ), 3, 2] ["a", "b", "c"]).1
      (by decide)).trans (by decide),
   (claim9_label_lookup_total [(1 : ℚ), 3, 2] []).2 (by decide)⟩

/-- `_generate_cache_key` (src/predict.py:209-211) produces the MD5 hex
digest of the url.  The digest is modelled as the identity fingerprint: the
claims depend only on equal urls yielding equal fingerprints, never on the
digest's value (MD5 collisions are out of scope of the spec). -/
def cacheKey (url : String) : String := url

/-- Oracle environment for one `predict` call: the per-url outputs of the
two loaded ONNX classifiers (`session.run` is an external artifact), the
outcome of the image fetch+decode at a requested resolution
(`preprocess_image` succeeding or raising), and the secondary model's input
geometry from its metadata file (`image_width`/`image_height`, 336×224 per
the spec — the metadata JSON itself is a downloaded artifact, not source). -/
structure InferEnv where
  primaryOut : String → String × ℚ
  secondaryOut : String → String × ℚ
  fetchImage : String → Nat → Nat → Except String Unit
  metaWidth : Nat
  metaHeight : Nat

instance : DecidableEq (Except String (String × String)) := fun a b =>
  match a, b with
  | Except.ok u, Except.ok v =>
    if h : u = v then isTrue (by rw [h]) else isFalse (fun hh => h (by injection hh))
  | Except.ok _, Except.error _ => isFalse (fun h => Except.noConfusion h)
  | Except.error _, Except.ok _ => isFalse (fun h => Except.noConfusion h)
  | Except.error s, Except.error t =>
    if h : s = t then isTrue (by rw [h]) else isFalse (fun hh => h (by injection hh))

/-- Observable outcome of one `predict` call: the returned pair or the
raised error, the cache state afterwards, and how many image
fetch/preprocess calls and classifier inference calls were made. -/
structure PredictOutcome where
  result : Except String (String × String)
  cache : PredictionCache
  imageFetches : Nat
  inferences : Nat
deriving DecidableEq

/-- `Prediction.predict` (src/predict.py:375-453): cache lookup first; then
HTTP session resolution (explicit argument, else the ambient
`__main__.http_session`, else the "HTTP session not available" error);
then primary fetch (224×224) and inference; accept at ≥ 85%; otherwise
secondary fetch (metadata geometry) and inference; accept at ≥ 90%;
otherwise fall back to the primary result.  Each accepted branch caches
`(name, formatted pct, tag)` under the url's fingerprint before returning.
`initialize_models` (artifact downloads) is keyed on a flag and does not
touch the image-fetch or inference counts modelled here. -/
def predictM (env : InferEnv) (c : PredictionCache) (url : String)
    (sessionArg mainHttpSession : Bool) (now : Int) : PredictOutcome :=
  let cache_key := cacheKey url
  let g := cacheGet c cache_key now
  match g.1 with
  | some v => PredictOutcome.mk (Except.ok (v.1, v.2.1)) g.2 0 0
  | none =>
    if sessionArg || mainHttpSession then
      match env.fetchImage url 224 224 with
      | Except.error e => PredictOutcome.mk (Except.error e) g.2 1 0
      | Except.ok _ =>
        let p := env.primaryOut url
        let primary_confidence_pct := p.2 * 100
        if primary_confidence_pct ≥ 85 then
          let confidence := formatPct primary_confidence_pct
          PredictOutcome.mk (Except.ok (p.1, confidence))
            (cacheSet g.2 cache_key (p.1, confidence, "primary") now) 1 1
        else
          match env.fetchImage url env.metaWidth env.metaHeight with
          | Except.error e => PredictOutcome.mk (Except.error e) g.2 2 1
          | Except.ok _ =>
            let s := env.secondaryOut url
            let secondary_confidence_pct := s.2 * 100
            if secondary_confidence_pct ≥ 90 then
              let confidence := formatPct secondary_confidence_pct
              PredictOutcome.mk (Except.ok (s.1, confidence))
                (cacheSet g.2 cache_key (s.1, confidence, "secondary") now) 2 2
            else
              let confidence := formatPct primary_confidence_pct
              PredictOutcome.mk (Except.ok (p.1, confidence))
                (cacheSet g.2 cache_key (p.1, confidence, "primary_fallback") now) 2 2
    else
      PredictOutcome.mk (Except.error "HTTP session not available") g.2 0 0

/-- The key just written by `set` is bound to the new value and timestamp. -/
theorem lookup_cacheSet_self (c : PredictionCache) (k : String) (v : CacheValue)
    (now : Int) : List.lookup k (cacheSet c k v now).entries = some (v, now) := by
  simp only [cacheSet]
  exact lookup_insertEntry_self k (v, now) _

/-- `get` preserves the configured TTL field. -/
theorem ttl_cacheGet (c : PredictionCache) (k : String) (now : Int) :
    (cacheGet c k now).2.ttl_seconds = c.ttl_seconds := by
  cases hl : (cleanupExpired now c).entries.lookup k with
  | none =>
    simp only [cacheGet, hl]
    rfl
  | some p =>
    obtain ⟨v, ts⟩ := p
    simp only [cacheGet, hl]
    by_cases hts : now - ts ≤ c.ttl_seconds
    · rw [if_pos hts]
      rfl
    · rw [if_neg hts]
      rfl

/-- A fresh bound key makes `get` a hit returning the stored value with the
swept cache. -/
theorem cacheGet_fresh_pair {c : PredictionCache} {k : String} {v : CacheValue}
    {ts now : Int} (hlk : List.lookup k c.entries = some (v, ts))
    (hfr : now - ts ≤ c.ttl_seconds) :
    cacheGet c k now = (some v, cleanupExpired now c) := by
  have htrue :
      (fun e : CacheEntry => decide (now - e.2.2 ≤ c.ttl_seconds)) (k, (v, ts)) = true := by
    simp only [decide_eq_true_eq]
    omega
  have hsome : List.lookup k (cleanupExpired now c).entries = some (v, ts) := by
    simpa [cleanupExpired] using
      lookup_filter_of_true (fun e => decide (now - e.2.2 ≤ c.ttl_seconds)) hlk htrue
  simp only [cacheGet, hsome]
  rw [if_pos hfr]

/-- Cache-miss computation of `predict` when the primary confidence clears
its threshold: the full observable outcome of the primary-accept branch. -/
theorem predictM_primary (env : InferEnv) (c : PredictionCache) (url : String)
    (sArg mainS : Bool) (now : Int)
    (hmiss : (cacheGet c (cacheKey url) now).1 = none)
    (hsess : (sArg || mainS) = true)
    (hfetch : env.fetchImage url 224 224 = Except.ok ())
    (hth : (env.primaryOut url).2 * 100 ≥ 85) :
    predictM env c url sArg mainS now =
      PredictOutcome.mk
        (Except.ok ((env.primaryOut url).1, formatPct ((env.primaryOut url).2 * 100)))
        (cacheSet (cacheGet c (cacheKey url) now).2 (cacheKey url)
          ((env.primaryOut url).1, formatPct ((env.primaryOut url).2 * 100), "primary")
          now)
        1 1 := by
  simp only [predictM, hmiss, hsess, eq_self_iff_true, if_true, hfetch]
  rw [if_pos hth]

/-- Cache-miss computation of `predict` when the primary is below 85% and
the secondary clears 90%: the secondary-accept branch. -/
theorem predictM_secondary (env : InferEnv) (c : PredictionCache) (url : String)
    (sArg mainS : Bool) (now : Int)
    (hmiss : (cacheGet c (cacheKey url) now).1 = none)
    (hsess : (sArg || mainS) = true)
    (hfetch : env.fetchImage url 224 224 = Except.ok ())
    (hfetch2 : env.fetchImage url env.metaWidth env.metaHeight = Except.ok ())
    (hlow : (env.primaryOut url).2 * 100 < 85)
    (hth : (env.secondaryOut url).2 * 100 ≥ 90) :
    predictM env c url sArg mainS now =
      PredictOutcome.mk
        (Except.ok ((env.secondaryOut url).1, formatPct ((env.secondaryOut url).2 * 100)))
        (cacheSet (cacheGet c (cacheKey url) now).2 (cacheKey url)
          ((env.secondaryOut url).1, formatPct ((env.secondaryOut url).2 * 100),
            "secondary")
          now)
        2 2 := by
  simp only [predictM, hmiss, hsess, eq_self_iff_true, if_true, hfetch]
  rw [if_neg (not_le.mpr hlow)]
  simp only [hfetch2]
  rw [if_pos hth]

/-- Cache-miss computation of `predict` when both models are below their
thresholds: the primary-fallback branch. -/
theorem predictM_fallback (env : InferEnv) (c : PredictionCache) (url : String)
    (sArg mainS : Bool) (now : Int)
    (hmiss : (cacheGet c (cacheKey url) now).1 = none)
    (hsess : (sArg || mainS) = true)
    (hfetch : env.fetchImage url 224 224 = Except.ok ())
    (hfetch2 : env.fetchImage url env.metaWidth env.metaHeight = Except.ok ())
    (hlow : (env.primaryOut url).2 * 100 < 85)
    (hlow2 : (env.secondaryOut url).2 * 100 < 90) :
    predictM env c url sArg mainS now =
      PredictOutcome.mk
        (Except.ok ((env.primaryOut url).1, formatPct ((env.primaryOut url).2 * 100)))
        (cacheSet (cacheGet c (cacheKey url) now).2 (cacheKey url)
          ((env.primaryOut url).1, formatPct ((env.primaryOut url).2 * 100),
            "primary_fallback")
          now)
        2 2 := by
  simp only [predictM, hmiss, hsess, eq_self_iff_true, if_true, hfetch]
  rw [if_neg (not_le.mpr hlow)]
  simp only [hfetch2]
  rw [if_neg (not_le.mpr hlow2)]

/-- Any successful cache-miss `predict` call caches the returned pair under
the url's fingerprint (with some source tag) at the call's timestamp. -/
theorem predictM_ok_cache (env : InferEnv) (c : PredictionCache) (url : String)
    (sArg mainS : Bool) (now : Int) (n conf : String)
    (hmiss : (cacheGet c (cacheKey url) now).1 = none)
    (h1 : (predictM env c url sArg mainS now).result = Except.ok (n, conf)) :
    ∃ tag, (predictM env c url sArg mainS now).cache =
      cacheSet (cacheGet c (cacheKey url) now).2 (cacheKey url) (n, conf, tag) now := by
  by_cases hs : (sArg || mainS) = true
  · cases hf : env.fetchImage url 224 224 with
    | error e =>
      exfalso
      simp only [predictM, hmiss, hs, eq_self_iff_true, if_true, hf] at h1
      exact Except.noConfusion h1
    | ok u =>
      cases u
      by_cases hp : (env.primaryOut url).2 * 100 ≥ 85
      · refine ⟨"primary", ?_⟩
        have he := predictM_primary env c url sArg mainS now hmiss hs hf hp
        have hres : (Except.ok ((env.primaryOut url).1,
            formatPct ((env.primaryOut url).2 * 100)) :
              Except String (String × String)) = Except.ok (n, conf) := by
          rw [← h1, he]
        injection hres with hres'
        rw [Prod.mk.injEq] at hres'
        obtain ⟨hn, hc⟩ := hres'
        rw [he, hn, hc]
      · cases hf2 : env.fetchImage url env.metaWidth env.metaHeight with
        | error e =>
          exfalso
          simp only [predictM, hmiss, hs, eq_self_iff_true, if_true, hf] at h1
          rw [if_neg hp] at h1
          simp only [hf2] at h1
          exact Except.noConfusion h1
        | ok u =>
          cases u
          have hp' : (env.primaryOut url).2 * 100 < 85 := not_le.mp hp
          by_cases hq : (env.secondaryOut url).2 * 100 ≥ 90
          · refine ⟨"secondary", ?_⟩
            have he := predictM_secondary env c url sArg mainS now hmiss hs hf hf2 hp' hq
            have hres : (Except.ok ((env.secondaryOut url).1,
                formatPct ((env.secondaryOut url).2 * 100)) :
                  Except String (String × String)) = Except.ok (n, conf) := by
              rw [← h1, he]
            injection hres with hres'
            rw [Prod.mk.injEq] at hres'
            obtain ⟨hn, hc⟩ := hres'
            rw [he, hn, hc]
          · refine ⟨"primary_fallback", ?_⟩
            have hq' : (env.secondaryOut url).2 * 100 < 90 := not_le.mp hq
            have he := predictM_fallback env c url sArg mainS now hmiss hs hf hf2 hp' hq'
            have hres : (Except.ok ((env.primaryOut url).1,
                formatPct ((env.primaryOut url).2 * 100)) :
                  Except String (String × String)) = Except.ok (n, conf) := by
              rw [← h1, he]
            injection hres with hres'
            rw [Prod.mk.injEq] at hres'
            obtain ⟨hn, hc⟩ := hres'
            rw [he, hn, hc]
  · exfalso
    have hs' : (sArg || mainS) = false := by
      cases hb : sArg || mainS
      · rfl
      · exact absurd hb hs
    simp only [predictM, hmiss, hs', Bool.false_eq_true, if_false] at h1
    exact Except.noConfusion h1

/-- C2: on a cache miss with the primary model at or above the 85%
threshold, `predict` returns the primary label with its two-decimal
formatted percentage, caches it tagged "primary", and performs exactly one
image fetch and one inference — no secondary fetch, no secondary
inference. -/
theorem claim2_primary_accepted (env : InferEnv) (c : PredictionCache)
    (url : String) (sArg mainS : Bool) (now : Int) (n : String) (p : ℚ)
    (hmiss : (cacheGet c (cacheKey url) now).1 = none)
    (hsess : (sArg || mainS) = true)
    (hfetch : env.fetchImage url 224 224 = Except.ok ())
    (hout : env.primaryOut url = (n, p))
    (hth : p * 100 ≥ 85) :
    (predictM env c url sArg mainS now).result =
      Except.ok (n, formatPct (p * 100)) ∧
    List.lookup (cacheKey url)
        (predictM env c url sArg mainS now).cache.entries =
      some ((n, formatPct (p * 100), "primary"), now) ∧
    (predictM env c url sArg mainS now).imageFetches = 1 ∧
    (predictM env c url sArg mainS now).inferences = 1 := by
  have hth' : (env.primaryOut url).2 * 100 ≥ 85 := by rw [hout]; exact hth
  have he := predictM_primary env c url sArg mainS now hmiss hsess hfetch hth'
  rw [hout] at he
  refine ⟨by rw [he], ?_, by rw [he], by rw [he]⟩
  rw [he]
  exact lookup_cacheSet_self _ _ _ _

/-- C3: on a cache miss with the primary model strictly below 85% and the
secondary model at or above 90%, `predict` returns the secondary label and
its formatted percentage, cached tagged "secondary". -/
theorem claim3_secondary_overrides (env : InferEnv) (c : PredictionCache)
    (url : String) (sArg mainS : Bool) (now : Int) (n1 : String) (p1 : ℚ)
    (n2 : String) (p2 : ℚ)
    (hmiss : (cacheGet c (cacheKey url) now).1 = none)
    (hsess : (sArg || mainS) = true)
    (hfetch : env.fetchImage url 224 224 = Except.ok ())
    (hfetch2 : env.fetchImage url env.metaWidth env.metaHeight = Except.ok ())
    (hout1 : env.primaryOut url = (n1, p1))
    (hout2 : env.secondaryOut url = (n2, p2))
    (hlow : p1 * 100 < 85)
    (hth : p2 * 100 ≥ 90) :
    (predictM env c url sArg mainS now).result =
      Except.ok (n2, formatPct (p2 * 100)) ∧
    List.lookup (cacheKey url)
        (predictM env c url sArg mainS now).cache.entries =
      some ((n2, formatPct (p2 * 100), "secondary"), now) ∧
    (predictM env c url sArg mainS now).imageFetches = 2 ∧
    (predictM env c url sArg mainS now).inferences = 2 := by
  have hlow' : (env.primaryOut url).2 * 100 < 85 := by rw [hout1]; exact hlow
  have hth' : (env.secondaryOut url).2 * 100 ≥ 90 := by rw [hout2]; exact hth
  have he := predictM_secondary env c url sArg mainS now hmiss hsess hfetch hfetch2 hlow' hth'
  rw [hout2] at he
  refine ⟨by rw [he], ?_, by rw [he], by rw [he]⟩
  rw [he]
  exact lookup_cacheSet_self _ _ _ _

/-- C1: on a cache miss with both models below their thresholds (primary
< 85%, secondary < 90%), `predict` falls back to the *primary* result:
it returns the primary label with the primary's formatted percentage (not
the secondary's), cached tagged "primary_fallback". -/
theorem claim1_cascade_fallback (env : InferEnv) (c : PredictionCache)
    (url : String) (sArg mainS : Bool) (now : Int) (n1 : String) (p1 : ℚ)
    (n2 : String) (p2 : ℚ)
    (hmiss : (cacheGet c (cacheKey url) now).1 = none)
    (hsess : (sArg || mainS) = true)
    (hfetch : env.fetchImage url 224 224 = Except.ok ())
    (hfetch2 : env.fetchImage url env.metaWidth env.metaHeight = Except.ok ())
    (hout1 : env.primaryOut url = (n1, p1))
    (hout2 : env.secondaryOut url = (n2, p2))
    (hlow : p1 * 100 < 85)
    (hlow2 : p2 * 100 < 90) :
    (predictM env c url sArg mainS now).result =
      Except.ok (n1, formatPct (p1 * 100)) ∧
    List.lookup (cacheKey url)
        (predictM env c url sArg mainS now).cache.entries =
      some ((n1, formatPct (p1 * 100), "primary_fallback"), now) ∧
    (predictM env c url sArg mainS now).imageFetches = 2 ∧
    (predictM env c url sArg mainS now).inferences = 2 := by
  have hlow' : (env.primaryOut url).2 * 100 < 85 := by rw [hout1]; exact hlow
  have hlow2' : (env.secondaryOut url).2 * 100 < 90 := by rw [hout2]; exact hlow2
  have he := predictM_fallback env c url sArg mainS now hmiss hsess hfetch hfetch2 hlow' hlow2'
  rw [hout1] at he
  refine ⟨by rw [he], ?_, by rw [he], by rw [he]⟩
  rw [he]
  exact lookup_cacheSet_self _ _ _ _

/-- C8: after a successful (cache-populating) `predict(url)`, a second
`predict(url)` within the TTL window — under any session arguments and even
a different inference environment — returns the identical (label,
confidence) pair with zero image fetches and zero inference calls: the
cache is consulted before any other work. -/
theorem claim8_cache_idempotence (env env2 : InferEnv) (c : PredictionCache)
    (url : String) (sArg mainS sArg2 mainS2 : Bool) (now now2 : Int)
    (n conf : String)
    (hmiss : (cacheGet c (cacheKey url) now).1 = none)
    (h1 : (predictM env c url sArg mainS now).result = Except.ok (n, conf))
    (hwin : now2 - now ≤ c.ttl_seconds) :
    (predictM env2 (predictM env c url sArg mainS now).cache url
      sArg2 mainS2 now2).result = Except.ok (n, conf) ∧
    (predictM env2 (predictM env c url sArg mainS now).cache url
      sArg2 mainS2 now2).imageFetches = 0 ∧
    (predictM env2 (predictM env c url sArg mainS now).cache url
      sArg2 mainS2 now2).inferences = 0 := by
  obtain ⟨tag, hc⟩ := predictM_ok_cache env c url sArg mainS now n conf hmiss h1
  have hl : List.lookup (cacheKey url)
      (predictM env c url sArg mainS now).cache.entries = some ((n, conf, tag), now) := by
    rw [hc]
    exact lookup_cacheSet_self _ _ _ _
  have httl : (predictM env c url sArg mainS now).cache.ttl_seconds = c.ttl_seconds := by
    rw [hc, ttl_cacheSet, ttl_cacheGet]
  have hget := cacheGet_fresh_pair hl (by rw [httl]; exact hwin)
  generalize hX : (predictM env c url sArg mainS now).cache = X at hget ⊢
  refine ⟨?_, ?_, ?_⟩
  · simp only [predictM, hget]
  · simp only [predictM, hget]
  · simp only [predictM, hget]

/-- C10 (amended): `predict` resolves the cache before any HTTP session.
With no session argument and no ambient `__main__.http_session`:
(i) a cached, unexpired url is answered from the cache; (ii) an uncached
url raises "HTTP session not available" with zero image fetches and zero
inference calls, and the cache afterwards is exactly the input cache with
expired entries swept by the lookup — no entry is added. -/
theorem claim10_session_resolution (env : InferEnv) (c : PredictionCache)
    (url : String) (now : Int) :
    (∀ (v : CacheValue) (ts : Int),
      List.lookup (cacheKey url) c.entries = some (v, ts) →
      now - ts ≤ c.ttl_seconds →
      predictM env c url false false now =
        PredictOutcome.mk (Except.ok (v.1, v.2.1)) (cleanupExpired now c) 0 0) ∧
    ((cacheGet c (cacheKey url) now).1 = none →
      predictM env c url false false now =
        PredictOutcome.mk (Except.error "HTTP session not available")
          (cacheGet c (cacheKey url) now).2 0 0) := by
  constructor
  · intro v ts hlk hfr
    have hget := cacheGet_fresh_pair hlk hfr
    simp only [predictM, hget]
  · intro hmiss
    simp only [predictM, hmiss, Bool.or_self, Bool.false_eq_true, if_false]

/-- Environment with inert model outputs, for probing the session/cache
paths of `predict` (neither model nor fetch is reached on those paths). -/
def probeEnv : InferEnv :=
  InferEnv.mk (fun _ => ("", 0)) (fun _ => ("", 0)) (fun _ _ _ => Except.ok ()) 336 224

/-- A cache holding one long-expired entry under a different key. -/
def staleProbe : PredictionCache :=
  PredictionCache.mk [("old", (("n", "c", "m"), 0))] 1000 3600

/-- C10, counterexample to "leaving the cache unchanged": an uncached url
with no session anywhere raises before any fetch/inference, **but** the
lookup's sweep removes the expired entry "old", so the cache afterwards
differs from the input cache. -/
theorem claim10_counterexample :
    (predictM probeEnv staleProbe "fresh" false false 100000).result =
      Except.error "HTTP session not available" ∧
    (predictM probeEnv staleProbe "fresh" false false 100000).imageFetches = 0 ∧
    (predictM probeEnv staleProbe "fresh" false false 100000).inferences = 0 ∧
    (predictM probeEnv staleProbe "fresh" false false 100000).cache ≠ staleProbe := by
  refine ⟨?_, ?_, ?_, ?_⟩
  · decide
  · decide
  · decide
  · decide

/-- C10 witness: the cached-hit part on a fresh single-entry cache with no
sessions, and the uncached error part on an empty cache. -/
theorem claim10_witness :
    predictM probeEnv (PredictionCache.mk [("u", (("n", "c", "m"), 50))] 10 3600)
        "u" false false 100 =
      PredictOutcome.mk (Except.ok ("n", "c"))
        (cleanupExpired 100 (PredictionCache.mk [("u", (("n", "c", "m"), 50))] 10 3600))
        0 0 ∧
    predictM probeEnv (PredictionCache.mk [] 10 3600) "w" false false 100 =
      PredictOutcome.mk (Except.error "HTTP session not available")
        (cacheGet (PredictionCache.mk [] 10 3600) (cacheKey "w") 100).2 0 0 :=
  ⟨(claim10_session_resolution probeEnv
      (PredictionCache.mk [("u", (("n", "c", "m"), 50))] 10 3600) "u" 100).1
      ("n", "c", "m") 50 (by decide) (by decide),
   (claim10_session_resolution probeEnv
      (PredictionCache.mk [] 10 3600) "w" 100).2 (by decide)⟩

/-- Concrete environment: primary says ("Pikachu", 0.92). -/
def envPikachu : InferEnv :=
  InferEnv.mk (fun _ => ("Pikachu", (92 : ℚ) / 100)) (fun _ => ("", 0))
    (fun _ _ _ => Except.ok ()) 336 224

/-- Concrete environment: primary ("Eevee", 0.40), secondary ("Eevee", 0.95). -/
def envEevee : InferEnv :=
  InferEnv.mk (fun _ => ("Eevee", (40 : ℚ) / 100)) (fun _ => ("Eevee", (95 : ℚ) / 100))
    (fun _ _ _ => Except.ok ()) 336 224

/-- Concrete environment: primary ("Ditto", 0.50), secondary ("Ditto", 0.60). -/
def envDitto : InferEnv :=
  InferEnv.mk (fun _ => ("Ditto", (50 : ℚ) / 100)) (fun _ => ("Ditto", (60 : ℚ) / 100))
    (fun _ _ _ => Except.ok ()) 336 224

theorem pct92_ge : ((92 : ℚ) / 100) * 100 ≥ 85 := by norm_num

theorem pct40_lt : ((40 : ℚ) / 100) * 100 < 85 := by norm_num

theorem pct95_ge : ((95 : ℚ) / 100) * 100 ≥ 90 := by norm_num

theorem pct50_lt : ((50 : ℚ) / 100) * 100 < 85 := by norm_num

theorem pct60_lt : ((60 : ℚ) / 100) * 100 < 90 := by norm_num

/-- C2 witness: primary 92% on an empty cache. -/
theorem claim2_witness :
    (predictM envPikachu (PredictionCache.mk [] 1000 3600) "u" true false 0).result =
      Except.ok ("Pikachu", formatPct (((92 : ℚ) / 100) * 100)) ∧
    List.lookup (cacheKey "u")
        (predictM envPikachu (PredictionCache.mk [] 1000 3600) "u"
          true false 0).cache.entries =
      some (("Pikachu", formatPct (((92 : ℚ) / 100) * 100), "primary"), 0) ∧
    (predictM envPikachu (PredictionCache.mk [] 1000 3600) "u"
      true false 0).imageFetches = 1 ∧
    (predictM envPikachu (PredictionCache.mk [] 1000 3600) "u"
      true false 0).inferences = 1 :=
  claim2_primary_accepted envPikachu (PredictionCache.mk [] 1000 3600) "u" true false 0
    "Pikachu" ((92 : ℚ) / 100) (by decide) (by decide) rfl rfl pct92_ge

/-- C3 witness: primary 40%, secondary 95% on an empty cache. -/
theorem claim3_witness :
    (predictM envEevee (PredictionCache.mk [] 1000 3600) "u" true false 0).result =
      Except.ok ("Eevee", formatPct (((95 : ℚ) / 100) * 100)) ∧
    List.lookup (cacheKey "u")
        (predictM envEevee (PredictionCache.mk [] 1000 3600) "u"
          true false 0).cache.entries =
      some (("Eevee", formatPct (((95 : ℚ) / 100) * 100), "secondary"), 0) ∧
    (predictM envEevee (PredictionCache.mk [] 1000 3600) "u"
      true false 0).imageFetches = 2 ∧
    (predictM envEevee (PredictionCache.mk [] 1000 3600) "u"
      true false 0).inferences = 2 :=
  claim3_secondary_overrides envEevee (PredictionCache.mk [] 1000 3600) "u" true false 0
    "Eevee" ((40 : ℚ) / 100) "Eevee" ((95 : ℚ) / 100)
    (by decide) (by decide) rfl rfl rfl rfl pct40_lt pct95_ge

/-- C1 witness: primary 50%, secondary 60% on an empty cache — the result
is the primary's 50%, not the secondary's 60%. -/
theorem claim1_witness :
    (predictM envDitto (PredictionCache.mk [] 1000 3600) "u" true false 0).result =
      Except.ok ("Ditto", formatPct (((50 : ℚ) / 100) * 100)) ∧
    List.lookup (cacheKey "u")
        (predictM envDitto (PredictionCache.mk [] 1000 3600) "u"
          true false 0).cache.entries =
      some (("Ditto", formatPct (((50 : ℚ) / 100) * 100), "primary_fallback"), 0) ∧
    (predictM envDitto (PredictionCache.mk [] 1000 3600) "u"
      true false 0).imageFetches = 2 ∧
    (predictM envDitto (PredictionCache.mk [] 1000 3600) "u"
      true false 0).inferences = 2 :=
  claim1_cascade_fallback envDitto (PredictionCache.mk [] 1000 3600) "u" true false 0
    "Ditto" ((50 : ℚ) / 100) "Ditto" ((60 : ℚ) / 100)
    (by decide) (by decide) rfl rfl rfl rfl pct50_lt pct60_lt

theorem envPikachu_primary_hi : (envPikachu.primaryOut "u").2 * 100 ≥ 85 := pct92_ge

/-- C8 witness: a first call at t=0 populates the cache; a second call at
t=100 (within the 3600s TTL) under a different environment and different
session flags returns the identical pair with zero fetches and
inferences. -/
theorem claim8_witness :
    (predictM probeEnv
        (predictM envPikachu (PredictionCache.mk [] 1000 3600) "u" true false 0).cache
        "u" false true 100).result =
      Except.ok ("Pikachu", formatPct (((92 : ℚ) / 100) * 100)) ∧
    (predictM probeEnv
        (predictM envPikachu (PredictionCache.mk [] 1000 3600) "u" true false 0).cache
        "u" false true 100).imageFetches = 0 ∧
    (predictM probeEnv
        (predictM envPikachu (PredictionCache.mk [] 1000 3600) "u" true false 0).cache
        "u" false true 100).inferences = 0 :=
  claim8_cache_idempotence envPikachu probeEnv (PredictionCache.mk [] 1000 3600) "u"
    true false false true 0 100 "Pikachu" (formatPct (((92 : ℚ) / 100) * 100))
    (by decide)
    (by
      rw [predictM_primary envPikachu (PredictionCache.mk [] 1000 3600) "u" true false 0
        (by decide) (by decide) rfl envPikachu_primary_hi]
      rfl)
    (by decide)
